import Mathlib

/-!
Shallow embedding of the orbit-game physics core (`physics.py`) and the
ship-control surface of `main.py`, together with theorems settling the
specification claims about it.

Python floats are modelled as real numbers; `math.sqrt`, `math.hypot`,
`math.cos`, `math.sin` become `Real.sqrt`, `Real.cos`, `Real.sin`.
-/

noncomputable section

/-- The gravitational constant, `G = 0.4` in `physics.py`. -/
def G : ℝ := 0.4

/-- `physics.Body`: a gravitating body in two dimensions.  Field names,
defaults and order follow the Python dataclass (`x, y, mass, radius, color,
vx, vy, name, trail`, plus the per-step acceleration `ax, ay`). -/
structure Body where
  x : ℝ
  y : ℝ
  mass : ℝ
  radius : ℝ
  color : ℕ × ℕ × ℕ
  vx : ℝ := 0
  vy : ℝ := 0
  name : String := ""
  trail : List (ℝ × ℝ) := []
  ax : ℝ := 0
  ay : ℝ := 0

/-- One iteration of the loop body of
`Body.compute_gravitational_acceleration`: the acceleration that `other`
contributes to `b`.  If the squared distance is at most `1e-6` the pair is
skipped (contributes `(0, 0)`); otherwise the contribution is
`force * dx * inv_dist` componentwise with
`force = G * other.mass * inv_dist * inv_dist` and
`inv_dist = 1 / sqrt dist_sq`, exactly as in the source.  The Python
`if other is self: continue` identity check is subsumed by this guard:
an object identical to `self` has `dx = dy = 0`, hence
`dist_sq = 0 ≤ 1e-6`, and is skipped by the epsilon branch as well. -/
def grav_contribution (b other : Body) : ℝ × ℝ :=
  let dx := other.x - b.x
  let dy := other.y - b.y
  let dist_sq := dx * dx + dy * dy
  if dist_sq ≤ 1e-6 then (0, 0)
  else
    let inv_dist := 1 / Real.sqrt dist_sq
    let force := G * other.mass * inv_dist * inv_dist
    (force * dx * inv_dist, force * dy * inv_dist)

/-- `Body.compute_gravitational_acceleration`: accumulate the contributions
of all bodies in the list into fresh totals starting from `(0, 0)` and store
them in `ax`/`ay` (the previous `ax`/`ay` are overwritten, never read). -/
def compute_gravitational_acceleration (b : Body) (bodies : List Body) : Body :=
  let total := bodies.foldl
    (fun acc other =>
      (acc.1 + (grav_contribution b other).1, acc.2 + (grav_contribution b other).2))
    (0, 0)
  { b with ax := total.1, ay := total.2 }

/-- `Body.update`: forward-Euler step.  Velocity is updated first
(`v += a * dt`), position second using the already-updated velocity
(`p += v * dt`); then the new position is appended to the trail and, if the
trail now holds more than 500 samples, the oldest one (`trail.pop(0)`) is
evicted. -/
def Body.update (b : Body) (dt : ℝ) : Body :=
  let vx' := b.vx + b.ax * dt
  let vy' := b.vy + b.ay * dt
  let x' := b.x + vx' * dt
  let y' := b.y + vy' * dt
  let trail' := b.trail ++ [(x', y')]
  { b with
    vx := vx'
    vy := vy'
    x := x'
    y := y'
    trail := if trail'.length > 500 then trail'.tail else trail' }

/-- `physics.SpaceShip`: a `Body` with orientation, thrust power, fuel and
the two thrust-intent flags.  Constructor defaults follow the source
(`thrust_power = 200`, `fuel = 1000`, `angle = -π/2`, flags off). -/
structure SpaceShip extends Body where
  angle : ℝ := -(Real.pi / 2)
  thrust_power : ℝ := 200
  fuel : ℝ := 1000
  thrusting_forward : Bool := false
  thrusting_backward : Bool := false

/-- `SpaceShip.rotate`: add `rotation_speed * direction * dt` to the facing
angle, with `rotation_speed = 2π` radians per second.  Nothing else changes. -/
def SpaceShip.rotate (s : SpaceShip) (direction dt : ℝ) : SpaceShip :=
  { s with angle := s.angle + (2 * Real.pi) * direction * dt }

/-- `SpaceShip.apply_thruster`: if fuel is exhausted do nothing; otherwise
collapse the two flags into `thrust_dir ∈ {-1, 0, 1}`; on a nonzero
direction add `accel * cos angle * dt` and `accel * sin angle * dt` to the
velocity with `accel = (thrust_power / mass) * thrust_dir`, and set
`fuel := max 0 (fuel - |accel| * dt)`. -/
def SpaceShip.apply_thruster (s : SpaceShip) (dt : ℝ) : SpaceShip :=
  if s.fuel ≤ 0 then s
  else
    let thrust_dir : ℝ :=
      (if s.thrusting_forward then 1 else 0) + (if s.thrusting_backward then -1 else 0)
    if thrust_dir = 0 then s
    else
      let accel := s.thrust_power / s.mass * thrust_dir
      let ax_thruster := accel * Real.cos s.angle
      let ay_thruster := accel * Real.sin s.angle
      { s with
        vx := s.vx + ax_thruster * dt
        vy := s.vy + ay_thruster * dt
        fuel := max 0 (s.fuel - |accel| * dt) }

/-- `SpaceShip.update`: apply the thruster first, then the inherited Euler
step `Body.update`. -/
def SpaceShip.update (s : SpaceShip) (dt : ℝ) : SpaceShip :=
  let s' := s.apply_thruster dt
  { s' with toBody := s'.toBody.update dt }

/-- `physics.distance`: Euclidean distance between the two centres
(`math.hypot dx dy = sqrt (dx² + dy²)`). -/
def distance (b1 b2 : Body) : ℝ :=
  let dx := b1.x - b2.x
  let dy := b1.y - b2.y
  Real.sqrt (dx * dx + dy * dy)

/-- `physics.check_collision`: the two bodies intersect iff the distance
between centres is at most the sum of the radii.  The embedding is a pure
predicate on the two bodies: neither argument is modified. -/
def check_collision (b1 b2 : Body) : Prop :=
  distance b1 b2 ≤ b1.radius + b2.radius

/-- Modelled from the spec: the later-revision `SpaceShip` carries four
screen-aligned strafe-intent flags (`strafe_left/right/up/down`); the
revision of `physics.py` defining them is missing from the sources (only
its caller in `main.py` sets the flags).  Physical fields follow the
`SpaceShip` of `physics.py`. -/
structure DirectionalShip where
  mass : ℝ
  thrust_power : ℝ
  fuel : ℝ
  vx : ℝ := 0
  vy : ℝ := 0
  angle : ℝ := -(Real.pi / 2)
  strafe_left : Bool := false
  strafe_right : Bool := false
  strafe_up : Bool := false
  strafe_down : Bool := false

/-- Modelled from the spec: horizontal component of the strafe direction,
the four axis-intent flags collapsed into `{-1, 0, 1}` (screen axes:
right is positive `x`). -/
def DirectionalShip.dirX (s : DirectionalShip) : ℝ :=
  (if s.strafe_right then 1 else 0) - (if s.strafe_left then 1 else 0)

/-- Modelled from the spec: vertical component of the strafe direction in
`{-1, 0, 1}` (screen axes: down is positive `y`). -/
def DirectionalShip.dirY (s : DirectionalShip) : ℝ :=
  (if s.strafe_down then 1 else 0) - (if s.strafe_up then 1 else 0)

/-- Modelled from the spec: the directional (screen-aligned) thrust mode,
whose implementation is absent from `src/physics.py` (only its caller in
`main.py` survives).  Per the spec: fuel is checked before applying;
acceleration of magnitude `thrust_power / mass` is applied component-wise
along the collapsed direction, independently of the facing angle; fuel
consumption is scaled by the Manhattan magnitude of the direction divided
by 2, and clamped at zero. -/
def DirectionalShip.apply_directional_thrust (s : DirectionalShip) (dt : ℝ) :
    DirectionalShip :=
  if s.fuel ≤ 0 then s
  else
    let accel := s.thrust_power / s.mass
    { s with
      vx := s.vx + accel * s.dirX * dt
      vy := s.vy + accel * s.dirY * dt
      fuel := max 0 (s.fuel - accel * ((|s.dirX| + |s.dirY|) / 2) * dt) }

/-- A directional-thrust ship with `thrust_power = 350`, `mass = 50`,
fuel 10 and only the right-strafe flag set. -/
def strafeShip : DirectionalShip :=
  { mass := 50, thrust_power := 350, fuel := 10, strafe_right := true }

/-- A unit-mass body at the origin. -/
def closeBodyA : Body := { x := 0, y := 0, mass := 1, radius := 1, color := (0, 0, 0) }

/-- A unit-mass body separated from `closeBodyA` by the nonzero distance
`1e-4`, which is inside the `1e-6` squared-distance guard. -/
def closeBodyB : Body := { x := 1e-4, y := 0, mass := 1, radius := 1, color := (0, 0, 0) }

/-- The spec scenario's massless probe body at the origin. -/
def originBody : Body := { x := 0, y := 0, mass := 0, radius := 1, color := (0, 0, 0) }

/-- The spec scenario's attracting body at `(10, 0)` with mass 100. -/
def pullBody : Body := { x := 10, y := 0, mass := 100, radius := 5, color := (0, 0, 0) }

/-- A body exactly coincident with `closeBodyA` but with a different mass,
used to witness the degenerate-pair guard. -/
def coincidentBody : Body := { x := 0, y := 0, mass := 5, radius := 2, color := (0, 0, 0) }

/-- The C4 scenario ship: at rest, full fuel, `thrust_power = 350`,
`mass = 50`, forward thrust active. -/
def restShip : SpaceShip :=
  { x := 0, y := 0, mass := 50, radius := 10, color := (255, 255, 255),
    angle := 0, thrust_power := 350, fuel := 1000, thrusting_forward := true }

/-- A ship with exhausted fuel and forward thrust requested, used to witness
that no acceleration is added once fuel is 0. -/
def emptyShip : SpaceShip :=
  { x := 0, y := 0, mass := 50, radius := 10, color := (255, 255, 255),
    angle := 0, thrust_power := 350, fuel := 0, thrusting_forward := true }

/-- A ship whose remaining fuel (3) is below the fuel demanded by one full
step (`350/50 · 1 = 7`), used to witness the no-pro-rating behaviour. -/
def lowFuelShip : SpaceShip :=
  { x := 0, y := 0, mass := 50, radius := 10, color := (255, 255, 255),
    angle := 0, thrust_power := 350, fuel := 3, thrusting_forward := true }

/-- A concrete body whose trail is exactly at the 500-sample cap, used to
exercise the eviction branch of `Body.update`. -/
def trailFullBody : Body :=
  { x := 0, y := 0, mass := 1, radius := 1, color := (255, 255, 255),
    trail := List.replicate 500 (0, 0) }

/-- Appending one sample and evicting when over 500 keeps the trail at or
below 500 samples. -/
theorem trail_cap_step (b : Body) (dt : ℝ) (h : b.trail.length ≤ 500) :
    (b.update dt).trail.length ≤ 500 := by
  unfold Body.update
  dsimp only
  split
  · simpa using h
  · simp_all

/-- The 500-sample bound is preserved by any sequence of updates. -/
theorem trail_cap_foldl (dts : List ℝ) (b : Body) (h : b.trail.length ≤ 500) :
    (dts.foldl Body.update b).trail.length ≤ 500 := by
  induction dts generalizing b with
  | nil => simpa using h
  | cons d ds ih => exact ih _ (trail_cap_step b d h)

/-- C6: starting from a trail within the 500-sample cap, one update keeps it
within the cap, any number of updates keeps it within the cap, and when the
cap is exactly reached the update evicts precisely the oldest sample before
appending the new position (FIFO on append). -/
theorem trail_bounded_and_fifo (b : Body) (dt : ℝ) (h : b.trail.length ≤ 500) :
    (b.update dt).trail.length ≤ 500 ∧
    (∀ dts : List ℝ, (dts.foldl Body.update b).trail.length ≤ 500) ∧
    (b.trail.length = 500 →
      (b.update dt).trail =
        b.trail.tail ++ [((b.update dt).x, (b.update dt).y)]) := by
  refine ⟨trail_cap_step b dt h, fun dts => trail_cap_foldl dts b h, fun h500 => ?_⟩
  have hne : b.trail ≠ [] := by
    intro hnil
    rw [hnil] at h500
    simp at h500
  unfold Body.update
  dsimp only
  rw [if_pos (by simp [h500])]
  cases htr : b.trail with
  | nil => exact absurd htr hne
  | cons p l => simp

/-- Witness for C6 at a concrete body whose trail is exactly at the cap. -/
theorem trail_bounded_and_fifo_witness :
    (trailFullBody.update 1).trail.length ≤ 500 ∧
    (trailFullBody.update 1).trail =
      (List.replicate 500 ((0 : ℝ), (0 : ℝ))).tail ++
        [((trailFullBody.update 1).x, (trailFullBody.update 1).y)] := by
  have htr : trailFullBody.trail = List.replicate 500 (0, 0) := rfl
  have hlen : trailFullBody.trail.length = 500 := by
    rw [htr, List.length_replicate]
  have h := trail_bounded_and_fifo trailFullBody 1 (le_of_eq hlen)
  refine ⟨h.1, ?_⟩
  have h2 := h.2.2 hlen
  rw [htr] at h2
  exact h2

/-- C7: `Body.update` is forward Euler in the stated order: the new velocity
is `(vx + ax·dt, vy + ay·dt)` and the new position uses the already-updated
velocity, `(x + (vx + ax·dt)·dt, y + (vy + ay·dt)·dt)`. -/
theorem body_update_forward_euler (b : Body) (dt : ℝ) :
    (b.update dt).vx = b.vx + b.ax * dt ∧
    (b.update dt).vy = b.vy + b.ay * dt ∧
    (b.update dt).x = b.x + (b.vx + b.ax * dt) * dt ∧
    (b.update dt).y = b.y + (b.vy + b.ay * dt) * dt := by
  refine ⟨?_, ?_, ?_, ?_⟩ <;> simp [Body.update]

/-- C9: `rotate` with direction `0` leaves the angle (indeed the whole ship)
unchanged; with unit direction `±1` for duration `t` it changes the angle by
exactly `±2π·t`; and it never touches the fuel. -/
theorem rotate_spec (s : SpaceShip) (dt t d : ℝ) :
    s.rotate 0 dt = s ∧
    (s.rotate 1 t).angle = s.angle + 2 * Real.pi * t ∧
    (s.rotate (-1) t).angle = s.angle - 2 * Real.pi * t ∧
    (s.rotate d t).fuel = s.fuel := by
  refine ⟨?_, ?_, ?_, ?_⟩
  · simp [SpaceShip.rotate]
  · simp [SpaceShip.rotate]
  · simp [SpaceShip.rotate]; ring
  · simp [SpaceShip.rotate]

/-- C8: `check_collision` holds iff the Euclidean distance between centres
is at most the sum of the radii, and the predicate is symmetric. -/
theorem check_collision_spec (a b : Body) :
    (check_collision a b ↔
      Real.sqrt ((a.x - b.x) * (a.x - b.x) + (a.y - b.y) * (a.y - b.y)) ≤
        a.radius + b.radius) ∧
    (check_collision a b ↔ check_collision b a) := by
  constructor
  · exact Iff.rfl
  · have hx : (a.x - b.x) * (a.x - b.x) + (a.y - b.y) * (a.y - b.y) =
        (b.x - a.x) * (b.x - a.x) + (b.y - a.y) * (b.y - a.y) := by ring
    simp only [check_collision, distance]
    rw [hx, add_comm a.radius b.radius]

/-- With fuel available and forward-only intent, `apply_thruster` adds the
thrust vector along the facing angle and charges `|thrust_power/mass| · dt`
of fuel, clamped at zero. -/
theorem apply_thruster_forward_fields (s : SpaceShip) (dt : ℝ) (hf : 0 < s.fuel)
    (h1 : s.thrusting_forward = true) (h2 : s.thrusting_backward = false) :
    (s.apply_thruster dt).vx = s.vx + s.thrust_power / s.mass * Real.cos s.angle * dt ∧
    (s.apply_thruster dt).vy = s.vy + s.thrust_power / s.mass * Real.sin s.angle * dt ∧
    (s.apply_thruster dt).fuel = max 0 (s.fuel - |s.thrust_power / s.mass| * dt) := by
  unfold SpaceShip.apply_thruster
  simp [h1, h2, not_le.mpr hf]

/-- With fuel available and backward-only intent, `apply_thruster` subtracts
the thrust vector along the facing angle and charges the same fuel. -/
theorem apply_thruster_backward_fields (s : SpaceShip) (dt : ℝ) (hf : 0 < s.fuel)
    (h1 : s.thrusting_forward = false) (h2 : s.thrusting_backward = true) :
    (s.apply_thruster dt).vx = s.vx - s.thrust_power / s.mass * Real.cos s.angle * dt ∧
    (s.apply_thruster dt).vy = s.vy - s.thrust_power / s.mass * Real.sin s.angle * dt ∧
    (s.apply_thruster dt).fuel = max 0 (s.fuel - |s.thrust_power / s.mass| * dt) := by
  unfold SpaceShip.apply_thruster
  simp [h1, h2, not_le.mpr hf]
  ring_nf
  exact ⟨trivial, trivial⟩

/-- When both flags are set the net thrust direction is zero and the ship is
returned unchanged. -/
theorem apply_thruster_both_flags (s : SpaceShip) (dt : ℝ)
    (h1 : s.thrusting_forward = true) (h2 : s.thrusting_backward = true) :
    s.apply_thruster dt = s := by
  unfold SpaceShip.apply_thruster
  simp [h1, h2]

/-- With no fuel, `apply_thruster` returns the ship unchanged. -/
theorem apply_thruster_no_fuel (s : SpaceShip) (dt : ℝ) (h : s.fuel ≤ 0) :
    s.apply_thruster dt = s := by
  unfold SpaceShip.apply_thruster
  rw [if_pos h]

/-- Norm of a thrust increment along an angle. -/
theorem thrust_norm (a t θ : ℝ) (ht : 0 ≤ t) :
    Real.sqrt ((a * Real.cos θ * t) ^ 2 + (a * Real.sin θ * t) ^ 2) = |a| * t := by
  have h : (a * Real.cos θ * t) ^ 2 + (a * Real.sin θ * t) ^ 2 =
      (a * t) ^ 2 * ((Real.sin θ) ^ 2 + (Real.cos θ) ^ 2) := by ring
  rw [h, Real.sin_sq_add_cos_sq, mul_one, Real.sqrt_sq_eq_abs, abs_mul,
    abs_of_nonneg ht]

/-- C4: with fuel available, forward-only intent adds a velocity increment of
magnitude `|thrust_power/mass| · dt` along the facing angle, backward-only
intent the same magnitude against it, fuel drops by `|thrust_power/mass| · dt`
floored at 0, and simultaneous forward and backward intent cancels, leaving
the ship (in particular its velocity) unchanged. -/
theorem apply_thruster_spec (s : SpaceShip) (dt : ℝ) (hf : 0 < s.fuel) (hdt : 0 ≤ dt) :
    (s.thrusting_forward = true → s.thrusting_backward = false →
      (s.apply_thruster dt).vx = s.vx + s.thrust_power / s.mass * Real.cos s.angle * dt ∧
      (s.apply_thruster dt).vy = s.vy + s.thrust_power / s.mass * Real.sin s.angle * dt ∧
      (s.apply_thruster dt).fuel = max 0 (s.fuel - |s.thrust_power / s.mass| * dt) ∧
      Real.sqrt (((s.apply_thruster dt).vx - s.vx) ^ 2 +
          ((s.apply_thruster dt).vy - s.vy) ^ 2) = |s.thrust_power / s.mass| * dt) ∧
    (s.thrusting_forward = false → s.thrusting_backward = true →
      (s.apply_thruster dt).vx = s.vx - s.thrust_power / s.mass * Real.cos s.angle * dt ∧
      (s.apply_thruster dt).vy = s.vy - s.thrust_power / s.mass * Real.sin s.angle * dt ∧
      (s.apply_thruster dt).fuel = max 0 (s.fuel - |s.thrust_power / s.mass| * dt) ∧
      Real.sqrt (((s.apply_thruster dt).vx - s.vx) ^ 2 +
          ((s.apply_thruster dt).vy - s.vy) ^ 2) = |s.thrust_power / s.mass| * dt) ∧
    (s.thrusting_forward = true → s.thrusting_backward = true →
      s.apply_thruster dt = s) := by
  refine ⟨fun h1 h2 => ?_, fun h1 h2 => ?_, fun h1 h2 => apply_thruster_both_flags s dt h1 h2⟩
  · obtain ⟨hvx, hvy, hfuel⟩ := apply_thruster_forward_fields s dt hf h1 h2
    refine ⟨hvx, hvy, hfuel, ?_⟩
    rw [hvx, hvy]
    have e1 : s.vx + s.thrust_power / s.mass * Real.cos s.angle * dt - s.vx =
        s.thrust_power / s.mass * Real.cos s.angle * dt := by ring
    have e2 : s.vy + s.thrust_power / s.mass * Real.sin s.angle * dt - s.vy =
        s.thrust_power / s.mass * Real.sin s.angle * dt := by ring
    rw [e1, e2]
    exact thrust_norm (s.thrust_power / s.mass) dt s.angle hdt
  · obtain ⟨hvx, hvy, hfuel⟩ := apply_thruster_backward_fields s dt hf h1 h2
    refine ⟨hvx, hvy, hfuel, ?_⟩
    rw [hvx, hvy]
    have e1 : s.vx - s.thrust_power / s.mass * Real.cos s.angle * dt - s.vx =
        -(s.thrust_power / s.mass) * Real.cos s.angle * dt := by ring
    have e2 : s.vy - s.thrust_power / s.mass * Real.sin s.angle * dt - s.vy =
        -(s.thrust_power / s.mass) * Real.sin s.angle * dt := by ring
    rw [e1, e2]
    have h := thrust_norm (-(s.thrust_power / s.mass)) dt s.angle hdt
    rwa [abs_neg] at h

/-- Witness for C4 at the spec scenario: rest ship, `thrust_power = 350`,
`mass = 50`, forward thrust for one second gives a velocity increment of
magnitude exactly 7 and fuel reduced by exactly 7. -/
theorem apply_thruster_spec_witness :
    Real.sqrt (((restShip.apply_thruster 1).vx - restShip.vx) ^ 2 +
        ((restShip.apply_thruster 1).vy - restShip.vy) ^ 2) = 7 ∧
    (restShip.apply_thruster 1).fuel = restShip.fuel - 7 := by
  have hfuel : restShip.fuel = 1000 := rfl
  have h := (apply_thruster_spec restShip 1 (by rw [hfuel]; norm_num) (by norm_num)).1 rfl rfl
  obtain ⟨-, -, hfl, hnorm⟩ := h
  constructor
  · rw [hnorm]
    show |(350 : ℝ) / 50| * 1 = 7
    norm_num
  · rw [hfl, hfuel]
    show max 0 (1000 - |(350 : ℝ) / 50| * 1) = 1000 - 7
    norm_num

/-- With neither flag set the net thrust direction is zero and the ship is
returned unchanged. -/
theorem apply_thruster_no_flags (s : SpaceShip) (dt : ℝ)
    (h1 : s.thrusting_forward = false) (h2 : s.thrusting_backward = false) :
    s.apply_thruster dt = s := by
  unfold SpaceShip.apply_thruster
  simp [h1, h2]

/-- Fuel bounds for a single `apply_thruster` call. -/
theorem apply_thruster_fuel_bounds (s : SpaceShip) (dt : ℝ) (hf : 0 ≤ s.fuel)
    (hdt : 0 ≤ dt) :
    (s.apply_thruster dt).fuel ≤ s.fuel ∧ 0 ≤ (s.apply_thruster dt).fuel := by
  have hmax : max 0 (s.fuel - |s.thrust_power / s.mass| * dt) ≤ s.fuel ∧
      0 ≤ max 0 (s.fuel - |s.thrust_power / s.mass| * dt) :=
    ⟨max_le hf (sub_le_self _ (mul_nonneg (abs_nonneg _) hdt)), le_max_left 0 _⟩
  by_cases hpos : 0 < s.fuel
  · cases hfw : s.thrusting_forward with
    | true =>
      cases hbw : s.thrusting_backward with
      | true => rw [apply_thruster_both_flags s dt hfw hbw]; exact ⟨le_rfl, hf⟩
      | false =>
        rw [(apply_thruster_forward_fields s dt hpos hfw hbw).2.2]
        exact hmax
    | false =>
      cases hbw : s.thrusting_backward with
      | true =>
        rw [(apply_thruster_backward_fields s dt hpos hfw hbw).2.2]
        exact hmax
      | false => rw [apply_thruster_no_flags s dt hfw hbw]; exact ⟨le_rfl, hf⟩
  · rw [apply_thruster_no_fuel s dt (not_lt.mp hpos)]
    exact ⟨le_rfl, hf⟩

/-- `SpaceShip.update` carries the fuel computed by `apply_thruster`. -/
theorem update_fuel_eq (s : SpaceShip) (dt : ℝ) :
    (s.update dt).fuel = (s.apply_thruster dt).fuel := rfl

/-- C5: for nonnegative fuel and a nonnegative time step, fuel is
non-increasing under both `apply_thruster` and `update`, never becomes
negative, and once fuel is 0 `apply_thruster` leaves both velocity
components unchanged. -/
theorem fuel_invariant (s : SpaceShip) (dt : ℝ) (hf : 0 ≤ s.fuel) (hdt : 0 ≤ dt) :
    (s.apply_thruster dt).fuel ≤ s.fuel ∧ 0 ≤ (s.apply_thruster dt).fuel ∧
    (s.update dt).fuel ≤ s.fuel ∧ 0 ≤ (s.update dt).fuel ∧
    (s.fuel = 0 →
      (s.apply_thruster dt).vx = s.vx ∧ (s.apply_thruster dt).vy = s.vy) := by
  obtain ⟨h1, h2⟩ := apply_thruster_fuel_bounds s dt hf hdt
  refine ⟨h1, h2, ?_, ?_, fun h0 => ?_⟩
  · rw [update_fuel_eq]; exact h1
  · rw [update_fuel_eq]; exact h2
  · rw [apply_thruster_no_fuel s dt (le_of_eq h0)]
    exact ⟨rfl, rfl⟩

/-- Witness for C5 at a ship with exhausted fuel and active forward intent:
fuel stays at zero under thrust and update, and no velocity is added. -/
theorem fuel_invariant_witness :
    (emptyShip.apply_thruster 1).fuel ≤ emptyShip.fuel ∧
    0 ≤ (emptyShip.update 1).fuel ∧
    (emptyShip.apply_thruster 1).vx = emptyShip.vx ∧
    (emptyShip.apply_thruster 1).vy = emptyShip.vy := by
  have h0 : emptyShip.fuel = 0 := rfl
  have h := fuel_invariant emptyShip 1 (le_of_eq h0.symm) (by norm_num)
  exact ⟨h.1, h.2.2.2.1, (h.2.2.2.2 h0).1, (h.2.2.2.2 h0).2⟩

/-- C10: when the remaining fuel is positive but below the demand
`(thrust_power/mass) · dt` of one full step and exactly one thrust flag is
set, `apply_thruster` still applies the full velocity increment of the step
(no pro-rating to the remaining fuel) and fuel is clamped to exactly 0. -/
theorem thrust_not_prorated (s : SpaceShip) (dt : ℝ) (hdt : 0 ≤ dt)
    (hf : 0 < s.fuel) (hlow : s.fuel < s.thrust_power / s.mass * dt)
    (hflags : s.thrusting_forward ≠ s.thrusting_backward) :
    (s.thrusting_forward = true →
      (s.apply_thruster dt).vx = s.vx + s.thrust_power / s.mass * Real.cos s.angle * dt ∧
      (s.apply_thruster dt).vy = s.vy + s.thrust_power / s.mass * Real.sin s.angle * dt) ∧
    (s.thrusting_backward = true →
      (s.apply_thruster dt).vx = s.vx - s.thrust_power / s.mass * Real.cos s.angle * dt ∧
      (s.apply_thruster dt).vy = s.vy - s.thrust_power / s.mass * Real.sin s.angle * dt) ∧
    (s.apply_thruster dt).fuel = 0 := by
  have hclamp : s.fuel - |s.thrust_power / s.mass| * dt ≤ 0 := by
    have habs : s.thrust_power / s.mass * dt ≤ |s.thrust_power / s.mass| * dt :=
      mul_le_mul_of_nonneg_right (le_abs_self _) hdt
    linarith
  cases hfw : s.thrusting_forward with
  | true =>
    have hbw : s.thrusting_backward = false := by
      cases hbw : s.thrusting_backward with
      | true => exact absurd (by rw [hfw, hbw]) hflags
      | false => rfl
    obtain ⟨hvx, hvy, hfl⟩ := apply_thruster_forward_fields s dt hf hfw hbw
    refine ⟨fun _ => ⟨hvx, hvy⟩, fun hbt => ?_, ?_⟩
    · rw [hbw] at hbt
      exact absurd hbt (by simp)
    · rw [hfl]
      exact max_eq_left hclamp
  | false =>
    have hbw : s.thrusting_backward = true := by
      cases hbw : s.thrusting_backward with
      | true => rfl
      | false => exact absurd (by rw [hfw, hbw]) hflags
    obtain ⟨hvx, hvy, hfl⟩ := apply_thruster_backward_fields s dt hf hfw hbw
    refine ⟨fun hft => ?_, fun _ => ⟨hvx, hvy⟩, ?_⟩
    · exact absurd hft (by simp)
    · rw [hfl]
      exact max_eq_left hclamp

/-- Witness for C10: the low-fuel ship (fuel 3 < 7 demanded) facing angle 0
still gains the full `+7` horizontal velocity and ends with fuel exactly 0. -/
theorem thrust_not_prorated_witness :
    (lowFuelShip.apply_thruster 1).vx = lowFuelShip.vx + 7 ∧
    (lowFuelShip.apply_thruster 1).fuel = 0 := by
  have hfuel : lowFuelShip.fuel = 3 := rfl
  have hlow : lowFuelShip.fuel < lowFuelShip.thrust_power / lowFuelShip.mass * 1 := by
    rw [hfuel]
    show (3 : ℝ) < 350 / 50 * 1
    norm_num
  have hflags : lowFuelShip.thrusting_forward ≠ lowFuelShip.thrusting_backward := by
    show true ≠ false
    simp
  have h := thrust_not_prorated lowFuelShip 1 (by norm_num) (by rw [hfuel]; norm_num)
    hlow hflags
  refine ⟨?_, h.2.2⟩
  have hvx := (h.1 rfl).1
  rw [hvx]
  have hangle : lowFuelShip.angle = 0 := rfl
  rw [hangle, Real.cos_zero]
  show lowFuelShip.vx + (350 : ℝ) / 50 * 1 * 1 = lowFuelShip.vx + 7
  norm_num

/-- Folding pairwise additions of a pair-valued function equals the pair of
componentwise sums. -/
theorem foldl_pair_sum (f : Body → ℝ × ℝ) (bs : List Body) (p : ℝ × ℝ) :
    bs.foldl (fun acc o => (acc.1 + (f o).1, acc.2 + (f o).2)) p =
    (p.1 + (bs.map fun o => (f o).1).sum, p.2 + (bs.map fun o => (f o).2).sum) := by
  induction bs generalizing p with
  | nil => simp
  | cons o t ih =>
    rw [List.foldl_cons, ih]
    simp
    constructor <;> ring

/-- The stored acceleration is the componentwise sum of the per-body
contributions. -/
theorem compute_grav_components (b : Body) (bodies : List Body) :
    (compute_gravitational_acceleration b bodies).ax =
      (bodies.map fun o => (grav_contribution b o).1).sum ∧
    (compute_gravitational_acceleration b bodies).ay =
      (bodies.map fun o => (grav_contribution b o).2).sum := by
  unfold compute_gravitational_acceleration
  rw [foldl_pair_sum (grav_contribution b) bodies (0, 0)]
  simp

/-- Above the epsilon guard, a pair's contribution is the vector of magnitude
`G · other.mass / dist²` times the unit vector from `b` toward `other`. -/
theorem grav_contribution_eq (b o : Body)
    (h : (1e-6 : ℝ) < (o.x - b.x) * (o.x - b.x) + (o.y - b.y) * (o.y - b.y)) :
    grav_contribution b o =
      (G * o.mass / ((o.x - b.x) * (o.x - b.x) + (o.y - b.y) * (o.y - b.y)) *
        ((o.x - b.x) / Real.sqrt ((o.x - b.x) * (o.x - b.x) + (o.y - b.y) * (o.y - b.y))),
       G * o.mass / ((o.x - b.x) * (o.x - b.x) + (o.y - b.y) * (o.y - b.y)) *
        ((o.y - b.y) / Real.sqrt ((o.x - b.x) * (o.x - b.x) + (o.y - b.y) * (o.y - b.y)))) := by
  have hd : (0 : ℝ) < (o.x - b.x) * (o.x - b.x) + (o.y - b.y) * (o.y - b.y) :=
    lt_trans (by norm_num) h
  have hspos : (0 : ℝ) < Real.sqrt ((o.x - b.x) * (o.x - b.x) + (o.y - b.y) * (o.y - b.y)) :=
    Real.sqrt_pos.mpr hd
  unfold grav_contribution
  rw [if_neg (not_le.mpr h)]
  dsimp only
  refine Prod.ext ?_ ?_ <;> dsimp only
  · field_simp
  · field_simp

/-- C1 counterexample: `closeBodyA` and `closeBodyB` have nonzero masses and
a nonzero separation (`1e-4`), so the claim demands an acceleration of the
nonzero magnitude `G · mass / dist²` on `closeBodyA`; the code computes
exactly `(0, 0)` because the squared distance `1e-8` falls inside the
epsilon guard. -/
theorem gravity_pointwise_claim_counterexample :
    closeBodyB.x - closeBodyA.x ≠ 0 ∧
    closeBodyA.mass ≠ 0 ∧ closeBodyB.mass ≠ 0 ∧
    G * closeBodyB.mass /
      ((closeBodyB.x - closeBodyA.x) * (closeBodyB.x - closeBodyA.x) +
        (closeBodyB.y - closeBodyA.y) * (closeBodyB.y - closeBodyA.y)) ≠ 0 ∧
    (compute_gravitational_acceleration closeBodyA [closeBodyB]).ax = 0 ∧
    (compute_gravitational_acceleration closeBodyA [closeBodyB]).ay = 0 := by
  refine ⟨?_, ?_, ?_, ?_, ?_, ?_⟩
  · norm_num [closeBodyA, closeBodyB]
  · norm_num [closeBodyA]
  · norm_num [closeBodyB]
  · norm_num [closeBodyA, closeBodyB, G]
  · norm_num [closeBodyA, closeBodyB, compute_gravitational_acceleration, grav_contribution]
  · norm_num [closeBodyA, closeBodyB, compute_gravitational_acceleration, grav_contribution]

/-- C1 (amended): the stored acceleration is the componentwise sum of the
per-body contributions, fully recomputed (independent of the `ax`/`ay` held
before the call), and for every pair whose squared separation exceeds the
`1e-6` epsilon guard the contribution is directed from `b` toward `o` with
magnitude exactly `G · o.mass / dist²` (pairs at or below the guard
contribute zero, per C2). -/
theorem gravitational_acceleration_spec (b : Body) (bodies : List Body) :
    ((compute_gravitational_acceleration b bodies).ax =
        (bodies.map fun o => (grav_contribution b o).1).sum ∧
      (compute_gravitational_acceleration b bodies).ay =
        (bodies.map fun o => (grav_contribution b o).2).sum) ∧
    (∀ a1 a2 : ℝ,
      (compute_gravitational_acceleration { b with ax := a1, ay := a2 } bodies).ax =
        (compute_gravitational_acceleration b bodies).ax ∧
      (compute_gravitational_acceleration { b with ax := a1, ay := a2 } bodies).ay =
        (compute_gravitational_acceleration b bodies).ay) ∧
    (∀ o : Body,
      (1e-6 : ℝ) < (o.x - b.x) * (o.x - b.x) + (o.y - b.y) * (o.y - b.y) →
      grav_contribution b o =
        (G * o.mass / ((o.x - b.x) * (o.x - b.x) + (o.y - b.y) * (o.y - b.y)) *
          ((o.x - b.x) / Real.sqrt ((o.x - b.x) * (o.x - b.x) + (o.y - b.y) * (o.y - b.y))),
         G * o.mass / ((o.x - b.x) * (o.x - b.x) + (o.y - b.y) * (o.y - b.y)) *
          ((o.y - b.y) / Real.sqrt ((o.x - b.x) * (o.x - b.x) + (o.y - b.y) * (o.y - b.y)))) ∧
      (0 ≤ o.mass →
        Real.sqrt ((grav_contribution b o).1 ^ 2 + (grav_contribution b o).2 ^ 2) =
          G * o.mass / ((o.x - b.x) * (o.x - b.x) + (o.y - b.y) * (o.y - b.y)))) := by
  refine ⟨compute_grav_components b bodies, fun a1 a2 => ?_, fun o h => ?_⟩
  · obtain ⟨h1, h2⟩ := compute_grav_components { b with ax := a1, ay := a2 } bodies
    obtain ⟨h3, h4⟩ := compute_grav_components b bodies
    rw [h1, h2, h3, h4]
    constructor <;> simp [grav_contribution]
  · have hd : (0 : ℝ) < (o.x - b.x) * (o.x - b.x) + (o.y - b.y) * (o.y - b.y) :=
      lt_trans (by norm_num) h
    have hs : Real.sqrt ((o.x - b.x) * (o.x - b.x) + (o.y - b.y) * (o.y - b.y)) *
        Real.sqrt ((o.x - b.x) * (o.x - b.x) + (o.y - b.y) * (o.y - b.y)) =
        (o.x - b.x) * (o.x - b.x) + (o.y - b.y) * (o.y - b.y) :=
      Real.mul_self_sqrt hd.le
    have hspos : (0 : ℝ) <
        Real.sqrt ((o.x - b.x) * (o.x - b.x) + (o.y - b.y) * (o.y - b.y)) :=
      Real.sqrt_pos.mpr hd
    refine ⟨grav_contribution_eq b o h, fun hm => ?_⟩
    have hA : (0 : ℝ) ≤
        G * o.mass / ((o.x - b.x) * (o.x - b.x) + (o.y - b.y) * (o.y - b.y)) := by
      apply div_nonneg _ hd.le
      exact mul_nonneg (by norm_num [G]) hm
    have keygen : ∀ A dx dy r : ℝ, 0 < r → r * r = dx * dx + dy * dy →
        (A * (dx / r)) ^ 2 + (A * (dy / r)) ^ 2 = A ^ 2 := by
      intro A dx dy r hr hrr
      have h2 : (A * (dx / r)) ^ 2 + (A * (dy / r)) ^ 2 =
          A ^ 2 * ((dx * dx + dy * dy) / (r * r)) := by
        field_simp
        ring
      rw [h2, ← hrr, div_self (ne_of_gt (mul_pos hr hr)), mul_one]
    rw [grav_contribution_eq b o h]
    dsimp only
    rw [keygen _ _ _ _ hspos hs, Real.sqrt_sq hA]

/-- Witness for C1 at the spec scenario: the massless body at the origin
pulled by the mass-100 body at `(10, 0)` acquires acceleration exactly
`(G·100/100, 0) = (0.4, 0)`. -/
theorem gravitational_acceleration_spec_witness :
    (compute_gravitational_acceleration originBody [pullBody]).ax = 0.4 ∧
    (compute_gravitational_acceleration originBody [pullBody]).ay = 0 := by
  obtain ⟨⟨hax, hay⟩, -, hpt⟩ := gravitational_acceleration_spec originBody [pullBody]
  have hd : (1e-6 : ℝ) <
      (pullBody.x - originBody.x) * (pullBody.x - originBody.x) +
      (pullBody.y - originBody.y) * (pullBody.y - originBody.y) := by
    norm_num [pullBody, originBody]
  obtain ⟨hcontrib, -⟩ := hpt pullBody hd
  have h1 := congrArg Prod.fst hcontrib
  have h2 := congrArg Prod.snd hcontrib
  dsimp only at h1 h2
  have hsqrt : Real.sqrt 100 = 10 := by
    rw [show (100 : ℝ) = 10 ^ 2 by norm_num, Real.sqrt_sq (by norm_num)]
  constructor
  · rw [hax]
    simp only [List.map_cons, List.map_nil, List.sum_cons, List.sum_nil, add_zero]
    rw [h1]
    norm_num [pullBody, originBody, G]
    rw [hsqrt]
    norm_num
  · rw [hay]
    simp only [List.map_cons, List.map_nil, List.sum_cons, List.sum_nil, add_zero]
    rw [h2]
    norm_num [pullBody, originBody, G]

/-- C2: a pair whose squared centre distance is at or below the `1e-6`
epsilon contributes exactly `(0, 0)`: its presence in the body list leaves
the computed `(ax, ay)` unchanged, so no division by zero (and no infinite
or undefined value) can arise from coincident or overlapping bodies. -/
theorem grav_epsilon_guard (b o : Body)
    (h : (o.x - b.x) * (o.x - b.x) + (o.y - b.y) * (o.y - b.y) ≤ 1e-6) :
    grav_contribution b o = (0, 0) ∧
    ∀ bodies : List Body,
      (compute_gravitational_acceleration b (o :: bodies)).ax =
        (compute_gravitational_acceleration b bodies).ax ∧
      (compute_gravitational_acceleration b (o :: bodies)).ay =
        (compute_gravitational_acceleration b bodies).ay := by
  have hc : grav_contribution b o = (0, 0) := by
    unfold grav_contribution
    rw [if_pos h]
  refine ⟨hc, fun bodies => ?_⟩
  obtain ⟨h1, h2⟩ := compute_grav_components b (o :: bodies)
  obtain ⟨h3, h4⟩ := compute_grav_components b bodies
  rw [h1, h2, h3, h4]
  constructor <;> simp [hc]

/-- Witness for C2 at two exactly coincident bodies: the contribution is
`(0, 0)` and the coincident body does not change the computed acceleration. -/
theorem grav_epsilon_guard_witness :
    grav_contribution closeBodyA coincidentBody = (0, 0) ∧
    (compute_gravitational_acceleration closeBodyA [coincidentBody]).ax =
      (compute_gravitational_acceleration closeBodyA ([] : List Body)).ax := by
  have h := grav_epsilon_guard closeBodyA coincidentBody
    (by norm_num [closeBodyA, coincidentBody])
  exact ⟨h.1, (h.2 []).1⟩

/-- C3 (spec-modelled): with fuel available, the directional thrust mode
collapses the four strafe flags into a direction in `{-1,0,1}²`, applies
acceleration `thrust_power / mass` component-wise along that direction
independently of the facing angle, and decreases fuel by the amount scaled
by the Manhattan magnitude of the direction divided by 2 (clamped at 0). -/
theorem directional_thrust_spec (s : DirectionalShip) (dt : ℝ) (hf : 0 < s.fuel) :
    (s.dirX = 0 ∨ s.dirX = 1 ∨ s.dirX = -1) ∧
    (s.dirY = 0 ∨ s.dirY = 1 ∨ s.dirY = -1) ∧
    (s.apply_directional_thrust dt).vx = s.vx + s.thrust_power / s.mass * s.dirX * dt ∧
    (s.apply_directional_thrust dt).vy = s.vy + s.thrust_power / s.mass * s.dirY * dt ∧
    (s.apply_directional_thrust dt).fuel =
      max 0 (s.fuel - s.thrust_power / s.mass * ((|s.dirX| + |s.dirY|) / 2) * dt) ∧
    (∀ θ : ℝ, ({ s with angle := θ }).apply_directional_thrust dt =
      { s.apply_directional_thrust dt with angle := θ }) := by
  have hnot : ¬ s.fuel ≤ 0 := not_le.mpr hf
  refine ⟨?_, ?_, ?_, ?_, ?_, fun θ => ?_⟩
  · unfold DirectionalShip.dirX
    cases s.strafe_right <;> cases s.strafe_left <;> norm_num
  · unfold DirectionalShip.dirY
    cases s.strafe_down <;> cases s.strafe_up <;> norm_num
  · unfold DirectionalShip.apply_directional_thrust
    rw [if_neg hnot]
  · unfold DirectionalShip.apply_directional_thrust
    rw [if_neg hnot]
  · unfold DirectionalShip.apply_directional_thrust
    rw [if_neg hnot]
  · unfold DirectionalShip.apply_directional_thrust
    rw [if_neg hnot, if_neg hnot]
    simp [DirectionalShip.dirX, DirectionalShip.dirY]

/-- Witness for C3: the right-strafing ship with `thrust_power/mass = 7`
gains `+7` horizontal velocity in one second and pays `7/2 = 3.5` fuel. -/
theorem directional_thrust_spec_witness :
    (strafeShip.apply_directional_thrust 1).vx = strafeShip.vx + 7 ∧
    (strafeShip.apply_directional_thrust 1).fuel = 6.5 := by
  have hfuel : strafeShip.fuel = 10 := rfl
  obtain ⟨-, -, hvx, -, hfl, -⟩ :=
    directional_thrust_spec strafeShip 1 (by rw [hfuel]; norm_num)
  have hdx : strafeShip.dirX = 1 := by
    unfold DirectionalShip.dirX strafeShip
    norm_num
  have hdy : strafeShip.dirY = 0 := by
    unfold DirectionalShip.dirY strafeShip
    norm_num
  constructor
  · rw [hvx, hdx]
    show strafeShip.vx + (350 : ℝ) / 50 * 1 * 1 = strafeShip.vx + 7
    norm_num
  · rw [hfl, hdx, hdy, hfuel]
    show max 0 ((10 : ℝ) - (350 : ℝ) / 50 * ((|(1 : ℝ)| + |(0 : ℝ)|) / 2) * 1) = 6.5
    norm_num

end
